import Mathlib

/-!
Verification of the natlang POS-tagging core: tagset normalization
(`postagging/corpus.py`, `postagging/corpus/util.py`, `postagging/portuguese.py`),
the sequential backoff tagger builder (`postagging/tagger.py`,
class `SequenceBackoffTagger`), the evaluator (`Tagger._accuracy`,
`Tagger._confusion_matrix`), and the polymorphic `Tagger.tag` dispatcher.

Python strings are embedded as `String`, tagged sentences as lists of
(word, tag) pairs, Python dict literals as association lists (the shipped
tables are checked to have no duplicate keys, so `List.lookup` agrees with
dict lookup), floats as `ℚ` (with numpy NaN embedded as `none : Option ℚ`),
and raised exceptions as `Except` errors.
-/

namespace Natlang

/-- Tagged sentence: ordered list of (word, tag) pairs. -/
abbrev TSent := List (String × String)

/-- Embedding of `util.UNIVERSAL_TAGSET`
(`src/postagging/util.py`, lines 6-7). -/
def UNIVERSAL_TAGSET : List String :=
  ["VERB", "NOUN", "PRON", "ADJ", "ADV", "ADP", "CONJ",
   "DET", "NUM", "PRT", "X", "."]

namespace Corpus

/-- Embedding of `Corpus.map_word_tag` (`src/postagging/corpus.py`,
lines 196-210): `try: return word, self.mapping[tag] except KeyError:
return word, self.default_tag`.  The dict is an association list;
`List.lookup` is dict access for tables without duplicate keys. -/
def map_word_tag (mapping : List (String × String)) (default_tag : String)
    (word_tag : String × String) : String × String :=
  match mapping.lookup word_tag.2 with
  | some t => (word_tag.1, t)
  | none => (word_tag.1, default_tag)

/-- Embedding of the `Corpus.default_tag` setter
(`src/postagging/corpus.py`, lines 50-56):
`self._default_tag = default_tag if default_tag else 'X'`
(Python falsy: `None` and the empty string both fall back to `'X'`). -/
def default_tag (value : Option String) : String :=
  match value with
  | some s => if s = "" then "X" else s
  | none => "X"

/-- Embedding of `Corpus.map_sentence_tags` (`src/postagging/corpus.py`):
`list(map(self.map_word_tag, sentence))`. -/
def map_sentence_tags (mapping : List (String × String)) (dflt : String)
    (sentence : TSent) : TSent :=
  sentence.map (map_word_tag mapping dflt)

end Corpus

namespace CorpusUtil

/-- Embedding of `Corpus.map_word_tag` (`src/postagging/corpus/util.py`,
lines 71-80): `return word, self.mapping.get(tag, self._default)`. -/
def map_word_tag (mapping : List (String × String)) (dflt : String)
    (word tag : String) : String × String :=
  (word, (mapping.lookup tag).getD dflt)

end CorpusUtil

/-- Embedding of `MacMorpho._universal_mapping`
(`src/postagging/portuguese.py`, lines 18-79).  The Python source builds one
dict by merging per-universal-tag groups; entries are kept verbatim and in
the same group order. -/
def macMorphoMapping : List (String × String) :=
  [("!", "."), ("\"", "."), ("$", "."), ("\x27", "."), ("(", "."),
   (")", "."), (",", "."), ("-", "."), (".", "."), ("/", "."),
   (":", "."), (";", "."), ("?", "."), ("[", "."), ("]", "."),
   ("ADJ", "ADJ"), ("ADJ|EST", "ADJ"),
   ("NUM", "NUM"), ("NUM|TEL", "NUM"),
   ("ADV", "ADV"), ("ADV-KS", "ADV"), ("ADV-KS-REL", "ADV"),
   ("ADV|+", "ADV"), ("ADV|EST", "ADV"), ("ADV|[", "ADV"), ("ADV|]", "ADV"),
   ("KC", "CONJ"), ("KC|[", "CONJ"), ("KC|]", "CONJ"), ("KS", "CONJ"),
   ("ART", "DET"), ("ART|+", "DET"),
   ("N", "NOUN"), ("NPRO", "NOUN"), ("NPROP", "NOUN"), ("NPROP|+", "NOUN"),
   ("N|AP", "NOUN"), ("N|DAT", "NOUN"), ("N|EST", "NOUN"),
   ("N|HOR", "NOUN"), ("N|TEL", "NOUN"),
   ("PRO-KS", "PRON"), ("PRO-KS-REL", "PRON"), ("PROADJ", "PRON"),
   ("PROPESS", "PRON"), ("PROSUB", "PRON"),
   ("PDEN", "PRT"),
   ("PREP", "ADP"), ("PREP|", "ADP"), ("PREP|+", "ADP"),
   ("PREP|[", "ADP"), ("PREP|]", "ADP"),
   ("V", "VERB"), ("V|+", "VERB"), ("VAUX", "VERB"),
   ("VAUX|+", "VERB"), ("PCP", "VERB"),
   ("CUR", "X"), ("IN", "X")]

/-- Embedding of `Floresta._universal_mapping`
(`src/postagging/portuguese.py`, lines 105-154).  The key written
`N<\x7b\x27185/60_R_14\x27\x7d` below is the literal tag for the word
`185/60_R_14` in the corpus. -/
def florestaMapping : List (String × String) :=
  [("!", "."), ("\"", "."), ("\x27", "."), ("*", "."), (",", "."),
   ("-", "."), (".", "."), ("/", "."), (";", "."), ("?", "."),
   ("[", "."), ("]", "."), ("\x7b", "."), ("\x7d", "."),
   ("»", "."), ("«", "."),
   ("adj", "ADJ"),
   ("num", "NUM"),
   ("adv", "ADV"),
   ("conj-c", "CONJ"), ("conj-s", "CONJ"),
   ("art", "DET"),
   ("n", "NOUN"), ("prop", "NOUN"),
   ("pron-det", "PRON"), ("pron-indp", "PRON"), ("pron-pers", "PRON"),
   ("", "PRT"),
   ("prp", "ADP"), ("prp-", "ADP"), ("pp", "ADP"),
   ("v-fin", "VERB"), ("v-ger", "VERB"), ("v-inf", "VERB"),
   ("v-pcp", "VERB"), ("vp", "VERB"),
   ("ec", "X"), ("in", "X"), ("N<\x7b\x27185/60_R_14\x27\x7d", "X")]

/-- Embedding of `LacioWeb._universal_mapping`
(`src/postagging/portuguese.py`, lines 255-326). -/
def lacioWebMapping : List (String × String) :=
  [("!", "."), ("\"", "."), ("\x27", "."), ("(", "."), (")", "."),
   (",", "."), ("-", "."), (".", "."), ("...", "."), (":", "."),
   (";", "."), ("?", "."), ("[", "."), ("]", "."),
   ("ADJ", "ADJ"),
   ("NC", "NUM"), ("ORD", "NUM"), ("NO", "NUM"),
   ("ADV", "ADV"), ("ADV+PPOA", "ADV"), ("ADV+PPR", "ADV"), ("LADV", "ADV"),
   ("CONJCOORD", "CONJ"), ("CONJSUB", "CONJ"), ("LCONJ", "CONJ"),
   ("ART", "DET"),
   ("N", "NOUN"), ("NP", "NOUN"),
   ("PAPASS", "PRON"), ("PD", "PRON"), ("PIND", "PRON"), ("PINT", "PRON"),
   ("PPOA", "PRON"), ("PPOA+PPOA", "PRON"), ("PPOT", "PRON"),
   ("PPR", "PRON"), ("PPS", "PRON"), ("PR", "PRON"), ("PREAL", "PRON"),
   ("PTRA", "PRON"), ("LP", "PRON"),
   ("PDEN", "PRT"), ("LDEN", "PRT"),
   ("PREP", "ADP"), ("PREP+ADJ", "ADP"), ("PREP+ADV", "ADP"),
   ("PREP+ART", "ADP"), ("PREP+N", "ADP"), ("PREP+PD", "ADP"),
   ("PREP+PPOA", "ADP"), ("PREP+PPOT", "ADP"), ("PREP+PPR", "ADP"),
   ("PREP+PREP", "ADP"), ("LPREP", "ADP"), ("LPREP+ART", "ADP"),
   ("VAUX", "VERB"), ("VAUX!PPOA", "VERB"), ("VAUX+PPOA", "VERB"),
   ("VBI", "VERB"), ("VBI+PAPASS", "VERB"), ("VBI+PPOA", "VERB"),
   ("VBI+PPR", "VERB"), ("VINT", "VERB"), ("VINT+PAPASS", "VERB"),
   ("VINT+PPOA", "VERB"), ("VINT+PREAL", "VERB"), ("VLIG", "VERB"),
   ("VLIG+PPOA", "VERB"), ("VTD", "VERB"), ("VTD!PPOA", "VERB"),
   ("VTD+PAPASS", "VERB"), ("VTD+PPOA", "VERB"), ("VTD+PPR", "VERB"),
   ("VTD+PREAL", "VERB"), ("VTI", "VERB"), ("VTI+PPOA", "VERB"),
   ("VTI+PREAL", "VERB"), ("AUX", "VERB"), ("INT", "VERB"),
   ("I", "X"), ("RES", "X"), ("IL", "X")]

namespace Floresta

/-- Structural embedding of Python `tag.split('+')` for the single-character
separator used by `Floresta._get_pos_tag`: splits into the (nonempty) list of
chunks between occurrences of the plus character. -/
def splitPlus : List Char → List (List Char)
  | [] => [[]]
  | '+' :: rest => [] :: splitPlus rest
  | c :: rest =>
    match splitPlus rest with
    | [] => [[c]]
    | g :: gs => (c :: g) :: gs

/-- Embedding of `Floresta._get_pos_tag` (`src/postagging/portuguese.py`,
lines 161-169): `return tag.split('+')[-1]`.  Python `split` on a nonempty
string always returns a nonempty list, so the `[-1]` index never fails;
the `getLastD` default is unreachable. -/
def get_pos_tag (tag : String) : String :=
  ⟨(splitPlus tag.data).getLastD []⟩

/-- Embedding of the override `Floresta.map_word_tag`
(`src/postagging/portuguese.py`, lines 156-158):
`super().map_word_tag((word_tag[0], self._get_pos_tag(word_tag[1])))`. -/
def map_word_tag (mapping : List (String × String)) (dflt : String)
    (word_tag : String × String) : String × String :=
  Corpus.map_word_tag mapping dflt (word_tag.1, get_pos_tag word_tag.2)

end Floresta

/-- Association-list lookup only returns pairs of the list. -/
theorem lookup_mem {α β : Type} [BEq α] [LawfulBEq α]
    {l : List (α × β)} {k : α} {v : β}
    (h : l.lookup k = some v) : (k, v) ∈ l := by
  induction l with
  | nil => simp [List.lookup] at h
  | cons p rest ih =>
    rw [List.lookup] at h
    by_cases hk : k = p.1
    · simp [hk] at h
      cases p
      simp_all
    · have : (k == p.1) = false := by simp [hk]
      rw [this] at h
      exact List.mem_cons_of_mem _ (ih h)

/-- When the key column has no duplicates, lookup finds each stored pair:
dict semantics for the shipped literal tables. -/
theorem lookup_eq_of_mem {l : List (String × String)} {k v : String}
    (hnd : (l.map Prod.fst).Nodup) (h : (k, v) ∈ l) : l.lookup k = some v := by
  induction l with
  | nil => simp at h
  | cons p rest ih =>
    rw [List.map_cons, List.nodup_cons] at hnd
    rcases List.mem_cons.1 h with h1 | h1
    · rw [← h1, List.lookup]
      simp
    · have hk : k ≠ p.1 := by
        intro he
        exact hnd.1 (he ▸ (List.mem_map.2 ⟨(k, v), h1, rfl⟩))
      have : (k == p.1) = false := by simp [hk]
      rw [List.lookup, this]
      exact ih hnd.2 h1

/-- Absent keys make lookup fail. -/
theorem lookup_eq_none_of_not_mem {l : List (String × String)} {k : String}
    (h : k ∉ l.map Prod.fst) : l.lookup k = none := by
  cases hl : l.lookup k with
  | none => rfl
  | some v => exact absurd (List.mem_map.2 ⟨(k, v), lookup_mem hl, rfl⟩) h

/-- Every value stored in the shipped tables, and the shipped default tag,
is a universal tag; hence so is any mapped tag. -/
theorem map_word_tag_snd_mem (mapping : List (String × String))
    (dflt w t : String) (hvals : ∀ p ∈ mapping, p.2 ∈ UNIVERSAL_TAGSET)
    (hd : dflt ∈ UNIVERSAL_TAGSET) :
    (Corpus.map_word_tag mapping dflt (w, t)).2 ∈ UNIVERSAL_TAGSET := by
  unfold Corpus.map_word_tag
  cases h : mapping.lookup t with
  | none => simpa using hd
  | some v => simpa using hvals _ (lookup_mem h)

/-- C1: for every tag string `t` and every shipped mapping table, mapping a
(word, `t`) pair returns the table's universal tag for `t` when `t` is a key
(the tables have duplicate-free keys, so the stored value is unambiguous),
returns the configured default tag when `t` is absent, never fails, and
leaves the word component unchanged; the `corpus.py` (try/except) and
`corpus/util.py` (`dict.get`) variants agree. -/
theorem mapping_key_default_spec :
    ((macMorphoMapping.map Prod.fst).Nodup ∧
      (florestaMapping.map Prod.fst).Nodup ∧
      (lacioWebMapping.map Prod.fst).Nodup) ∧
    ∀ (mapping : List (String × String)) (dflt w t v : String),
      ((mapping.map Prod.fst).Nodup → (t, v) ∈ mapping →
        Corpus.map_word_tag mapping dflt (w, t) = (w, v)) ∧
      (t ∉ mapping.map Prod.fst →
        Corpus.map_word_tag mapping dflt (w, t) = (w, dflt)) ∧
      (Corpus.map_word_tag mapping dflt (w, t)).1 = w ∧
      Corpus.map_word_tag mapping dflt (w, t) =
        CorpusUtil.map_word_tag mapping dflt w t := by
  refine ⟨⟨by decide, by decide, by decide⟩, ?_⟩
  intro mapping dflt w t v
  refine ⟨fun hnd hm => ?_, fun habs => ?_, ?_, ?_⟩
  · unfold Corpus.map_word_tag
    rw [lookup_eq_of_mem hnd hm]
  · unfold Corpus.map_word_tag
    rw [lookup_eq_none_of_not_mem habs]
  · unfold Corpus.map_word_tag
    cases mapping.lookup t <;> rfl
  · unfold Corpus.map_word_tag CorpusUtil.map_word_tag
    cases mapping.lookup t <;> rfl

/-- Witness for C1: the shipped MacMorpho table maps its key `ADJ|EST` to
`ADJ`, and an unknown tag `ZZZ` falls back to the configured default. -/
theorem mapping_key_default_spec_witness :
    ((macMorphoMapping.map Prod.fst).Nodup ∧
      ("ADJ|EST", "ADJ") ∈ macMorphoMapping ∧
      Corpus.map_word_tag macMorphoMapping "X" ("vermelho", "ADJ|EST") =
        ("vermelho", "ADJ")) ∧
    ("ZZZ" ∉ macMorphoMapping.map Prod.fst ∧
      Corpus.map_word_tag macMorphoMapping "X" ("w", "ZZZ") = ("w", "X")) := by
  refine ⟨⟨by decide, by decide, ?_⟩, ⟨by decide, ?_⟩⟩
  · exact (mapping_key_default_spec.2 macMorphoMapping "X" "vermelho"
      "ADJ|EST" "ADJ").1 (by decide) (by decide)
  · exact ((mapping_key_default_spec.2 macMorphoMapping "X" "w" "ZZZ"
      "ADJ").2.1 (by decide))

/-- C8: for every input tag (mapped or unmapped) and every shipped table, the
normalized tag lies in the fixed 12-symbol universal tagset; every table
value and the shipped default tag (`'X'`, from the `default_tag` setter with
no explicit value) lie in that set.  Floresta normalization goes through its
`map_word_tag` override. -/
theorem universal_tagset_closure (w t : String) :
    (Corpus.map_word_tag macMorphoMapping (Corpus.default_tag none)
      (w, t)).2 ∈ UNIVERSAL_TAGSET ∧
    (Floresta.map_word_tag florestaMapping (Corpus.default_tag none)
      (w, t)).2 ∈ UNIVERSAL_TAGSET ∧
    (Corpus.map_word_tag lacioWebMapping (Corpus.default_tag none)
      (w, t)).2 ∈ UNIVERSAL_TAGSET ∧
    Corpus.default_tag none ∈ UNIVERSAL_TAGSET ∧
    (∀ p ∈ macMorphoMapping, p.2 ∈ UNIVERSAL_TAGSET) ∧
    (∀ p ∈ florestaMapping, p.2 ∈ UNIVERSAL_TAGSET) ∧
    (∀ p ∈ lacioWebMapping, p.2 ∈ UNIVERSAL_TAGSET) := by
  have hmac : ∀ p ∈ macMorphoMapping, p.2 ∈ UNIVERSAL_TAGSET := by decide
  have hflo : ∀ p ∈ florestaMapping, p.2 ∈ UNIVERSAL_TAGSET := by decide
  have hlac : ∀ p ∈ lacioWebMapping, p.2 ∈ UNIVERSAL_TAGSET := by decide
  have hd : Corpus.default_tag none ∈ UNIVERSAL_TAGSET := by decide
  refine ⟨map_word_tag_snd_mem _ _ _ _ hmac hd, ?_,
    map_word_tag_snd_mem _ _ _ _ hlac hd, hd, hmac, hflo, hlac⟩
  exact map_word_tag_snd_mem _ _ _ _ hflo hd

/-- C9: Floresta's `map_word_tag` override first reduces a compound tag to
its last `+`-separated component and only then performs the table lookup;
in particular `H+prp-` reduces to `prp-` and maps to `ADP`, whereas a direct
lookup of the unreduced tag would have produced the default tag. -/
theorem floresta_compound_reduction (w t dflt : String) :
    Floresta.map_word_tag florestaMapping dflt (w, t) =
      Corpus.map_word_tag florestaMapping dflt (w, Floresta.get_pos_tag t) ∧
    Floresta.get_pos_tag "H+prp-" = "prp-" ∧
    Floresta.map_word_tag florestaMapping "X" ("em", "H+prp-") =
      ("em", "ADP") ∧
    Corpus.map_word_tag florestaMapping "X" ("em", "H+prp-") = ("em", "X") := by
  exact ⟨rfl, by decide, by decide, by decide⟩

namespace Tagger

/-- Embedding of Python/numpy `round` on ideal reals (ℚ): round half to
even (banker's rounding), used by both `round(..., decimals)` in
`Tagger._accuracy` and `np.around` in `Tagger._confusion_matrix`. -/
def roundHalfEven (q : ℚ) : ℤ :=
  if q - ⌊q⌋ < 1/2 then ⌊q⌋
  else if 1/2 < q - ⌊q⌋ then ⌊q⌋ + 1
  else if 2 ∣ ⌊q⌋ then ⌊q⌋ else ⌊q⌋ + 1

/-- Rounding to a fixed number of decimal places, as `round(x, decimals)`. -/
def roundDec (q : ℚ) (decimals : Nat) : ℚ :=
  (roundHalfEven (q * 10 ^ decimals) : ℚ) / 10 ^ decimals

/-- Number of positions where predicted equals gold, the numerator of
sklearn `accuracy_score` with `normalize=True`. -/
def matchCount (y_true y_pred : List String) : Nat :=
  (y_true.zip y_pred).countP fun p => p.1 == p.2

/-- Embedding of `Tagger._accuracy` (`src/postagging/tagger.py`, lines
157-168): `round(accuracy_score(y_true, y_pred, normalize), decimals)` with
`normalize=True`, i.e. the matching fraction rounded to `decimals` places
(default 2 in the source). -/
def accuracy (y_true y_pred : List String) (decimals : Nat) : ℚ :=
  roundDec ((matchCount y_true y_pred : ℚ) / (y_true.length : ℚ)) decimals

/-- Lexicographic comparison of strings by Unicode code point, the order
numpy/sklearn use when sorting inferred labels. -/
def lexLe : List Char → List Char → Bool
  | [], _ => true
  | _ :: _, [] => false
  | a :: as, b :: bs =>
    if a.val < b.val then true
    else if b.val < a.val then false
    else lexLe as bs

/-- String comparison on the underlying character lists. -/
def strLe (s t : String) : Bool := lexLe s.data t.data

/-- Insertion step of insertion sort by `strLe`. -/
def insertSorted (s : String) : List String → List String
  | [] => [s]
  | t :: rest => if strLe s t then s :: t :: rest else t :: insertSorted s rest

/-- Insertion sort by `strLe`: sorted label order of `np.unique`. -/
def sortStrings : List String → List String
  | [] => []
  | s :: rest => insertSorted s (sortStrings rest)

/-- Labels inferred by sklearn `confusion_matrix(y_true, y_pred)` (no
`labels` argument in the source call): the sorted union of the values
occurring in either sequence. -/
def cmLabels (y_true y_pred : List String) : List String :=
  sortStrings ((y_true ++ y_pred).dedup)

/-- Row of the raw confusion matrix for gold label `a`: per predicted label
`b`, the number of positions with gold `a` and prediction `b`. -/
def cmRow (labels y_true y_pred : List String) (a : String) : List Nat :=
  labels.map fun b => (y_true.zip y_pred).countP fun p => p.1 == a && p.2 == b

/-- Raw count confusion matrix, rows indexed by gold label. -/
def cmCounts (labels y_true y_pred : List String) : List (List Nat) :=
  labels.map (cmRow labels y_true y_pred)

/-- Embedding of the row normalization in `Tagger._confusion_matrix`:
`cm.astype('float') / cm.sum(axis=1)[:, np.newaxis]` followed by
`np.around(cm, decimals)`.  A zero row sum makes numpy produce NaN
(`0.0/0.0`), embedded as `none`. -/
def normRow (row : List Nat) (decimals : Nat) : List (Option ℚ) :=
  row.map fun c : Nat =>
    if row.sum = 0 then none
    else some (roundDec ((c : ℚ) / (row.sum : ℚ)) decimals)

/-- Embedding of `Tagger._confusion_matrix` (`src/postagging/tagger.py`,
lines 170-186). -/
def confusion_matrix (y_true y_pred : List String) (normalize : Bool)
    (decimals : Nat) : List (List (Option ℚ)) :=
  if normalize then
    (cmCounts (cmLabels y_true y_pred) y_true y_pred).map (normRow · decimals)
  else
    (cmCounts (cmLabels y_true y_pred) y_true y_pred).map
      (List.map fun c : Nat => some (c : ℚ))

end Tagger

/-- Integers round to themselves. -/
theorem roundHalfEven_intCast (z : ℤ) :
    Tagger.roundHalfEven (z : ℚ) = z := by
  unfold Tagger.roundHalfEven
  rw [Int.floor_intCast]
  norm_num

/-- Rounding to two decimals is the identity on rationals that are integer
multiples of 1/100. -/
theorem roundDec_two_eq_self {q : ℚ} {k : ℤ} (h : q * 100 = (k : ℚ)) :
    Tagger.roundDec q 2 = q := by
  unfold Tagger.roundDec
  have h100 : ((10 : ℚ) ^ 2) = 100 := by norm_num
  rw [h100, h, roundHalfEven_intCast, ← h]
  field_simp

/-- Evaluation rule for the banker's rounding used in the embedding. -/
theorem roundHalfEven_eq (q : ℚ) (z : ℤ) (h1 : ⌊q⌋ = z)
    (h2 : q - (z : ℚ) < 1/2) : Tagger.roundHalfEven q = z := by
  unfold Tagger.roundHalfEven
  rw [h1, if_pos h2]

/-- Counterexample for C4: `_accuracy` rounds to two decimal places, so on
three tokens with one match it returns 0.33, not the exact fraction 1/3. -/
theorem accuracy_rounds_counterexample :
    Tagger.accuracy ["NOUN", "NOUN", "NOUN"] ["NOUN", "X", "X"] 2 = 33/100 ∧
    (33 : ℚ)/100 ≠
      (Tagger.matchCount ["NOUN", "NOUN", "NOUN"] ["NOUN", "X", "X"] : ℚ) /
        ((["NOUN", "NOUN", "NOUN"] : List String).length : ℚ) := by
  have hm : Tagger.matchCount ["NOUN", "NOUN", "NOUN"] ["NOUN", "X", "X"]
      = 1 := by decide
  constructor
  · unfold Tagger.accuracy Tagger.roundDec
    rw [hm]
    have h1 : ((1 : Nat) : ℚ) /
        (((["NOUN", "NOUN", "NOUN"] : List String).length : Nat) : ℚ)
          * 10 ^ 2 = 100/3 := by norm_num
    rw [h1]
    rw [roundHalfEven_eq (100/3) 33 (by rw [Int.floor_eq_iff]; norm_num)
      (by norm_num)]
    norm_num
  · rw [hm]
    norm_num

/-- C4 (amended): `_accuracy` returns the matching fraction rounded
half-to-even at `decimals=2` places; on fractions that are integer
multiples of 1/100 (such as the spec's four-token example, which yields
exactly 0.5) this coincides with the exact fraction. -/
theorem accuracy_rounded_fraction (y_true y_pred : List String) (k : ℤ)
    (_hlen : y_true.length = y_pred.length) (_hpos : 0 < y_true.length)
    (hk : (Tagger.matchCount y_true y_pred : ℚ) / (y_true.length : ℚ) * 100
      = (k : ℚ)) :
    Tagger.accuracy y_true y_pred 2 =
      (Tagger.matchCount y_true y_pred : ℚ) / (y_true.length : ℚ) ∧
    Tagger.accuracy ["NOUN", "VERB", "NOUN", "NOUN"]
      ["NOUN", "NOUN", "NOUN", "VERB"] 2 = 1/2 := by
  constructor
  · unfold Tagger.accuracy
    exact roundDec_two_eq_self hk
  · have hm : Tagger.matchCount ["NOUN", "VERB", "NOUN", "NOUN"]
        ["NOUN", "NOUN", "NOUN", "VERB"] = 2 := by decide
    unfold Tagger.accuracy
    rw [hm]
    have h1 : ((2 : Nat) : ℚ) /
        (((["NOUN", "VERB", "NOUN", "NOUN"] : List String).length : Nat) : ℚ)
          = 1/2 := by norm_num
    rw [h1, roundDec_two_eq_self (k := 50) (by norm_num)]

/-- Witness for C4 (amended) at a concrete one-token input. -/
theorem accuracy_rounded_fraction_witness :
    (["NOUN"] : List String).length = (["VERB"] : List String).length ∧
    0 < (["NOUN"] : List String).length ∧
    (Tagger.matchCount ["NOUN"] ["VERB"] : ℚ) /
      ((["NOUN"] : List String).length : ℚ) * 100 = ((0 : ℤ) : ℚ) ∧
    (Tagger.accuracy ["NOUN"] ["VERB"] 2 =
      (Tagger.matchCount ["NOUN"] ["VERB"] : ℚ) /
        ((["NOUN"] : List String).length : ℚ) ∧
     Tagger.accuracy ["NOUN", "VERB", "NOUN", "NOUN"]
      ["NOUN", "NOUN", "NOUN", "VERB"] 2 = 1/2) := by
  have hm : Tagger.matchCount ["NOUN"] ["VERB"] = 0 := by decide
  refine ⟨by decide, by decide, by rw [hm]; norm_num, ?_⟩
  exact accuracy_rounded_fraction ["NOUN"] ["VERB"] 0 (by decide) (by decide)
    (by rw [hm]; norm_num)

/-- Pointwise sums of mapped lists split. -/
theorem sum_map_add {α : Type} (l : List α) (f g : α → Nat) :
    (l.map fun b => f b + g b).sum = (l.map f).sum + (l.map g).sum := by
  induction l with
  | nil => simp
  | cons x t ih => simp [ih]; omega

/-- Summing a one-hot indicator over a duplicate-free label list containing
the hit yields 1. -/
theorem sum_map_onehot (labels : List String) (c : String) :
    labels.Nodup → c ∈ labels →
    (labels.map fun b => if c == b then (1 : Nat) else 0).sum = 1 := by
  induction labels with
  | nil =>
    intro _ hc
    simp at hc
  | cons b rest ih =>
    intro hnd hc
    rw [List.nodup_cons] at hnd
    rcases List.mem_cons.1 hc with h1 | h1
    · subst h1
      have hz : (rest.map fun b => if c == b then (1 : Nat) else 0).sum = 0 := by
        rw [List.sum_eq_zero]
        intro x hx
        rcases List.mem_map.1 hx with ⟨y, hy, hxy⟩
        have hcy : (c == y) = false :=
          beq_eq_false_iff_ne.2 fun he => hnd.1 (he ▸ hy)
        rw [← hxy, hcy]
        simp
      rw [List.map_cons, List.sum_cons, hz]
      simp
    · have hcb : (c == b) = false :=
        beq_eq_false_iff_ne.2 fun he => hnd.1 (he ▸ h1)
      rw [List.map_cons, List.sum_cons, hcb, ih hnd.2 h1]
      simp

/-- Summing a conditioned one-hot indicator over a duplicate-free label list
containing the hit yields 1 when the condition holds. -/
theorem sum_map_indicator (labels : List String) (c : String) (cond : Bool)
    (hnd : labels.Nodup) (hc : c ∈ labels) :
    (labels.map fun b => if cond && (c == b) then 1 else 0).sum =
      if cond then 1 else 0 := by
  cases cond with
  | false => simp
  | true =>
    simp only [Bool.true_and, if_true]
    exact sum_map_onehot labels c hnd hc

/-- Summing the per-predicted-label counts over a duplicate-free label list
covering every prediction gives the count of pairs with the given gold
label. -/
theorem countP_split (l : List (String × String)) (a : String)
    (labels : List String) (hnd : labels.Nodup)
    (hl : ∀ p ∈ l, p.2 ∈ labels) :
    (labels.map fun b => l.countP fun p => p.1 == a && p.2 == b).sum =
      l.countP fun p => p.1 == a := by
  induction l with
  | nil => simp
  | cons x t ih =>
    have hx : x.2 ∈ labels := hl x (List.mem_cons_self x t)
    have ht : ∀ p ∈ t, p.2 ∈ labels := fun p hp => hl p (List.mem_cons_of_mem x hp)
    simp only [List.countP_cons]
    rw [sum_map_add labels
      (fun b => t.countP fun p => p.1 == a && p.2 == b)
      (fun b => if (x.1 == a && x.2 == b) = true then 1 else 0)]
    rw [ih ht]
    have : (labels.map fun b => if (x.1 == a && x.2 == b) = true then 1 else 0).sum
        = if (x.1 == a) = true then 1 else 0 := by
      simpa using sum_map_indicator labels x.2 (x.1 == a) hnd hx
    rw [this]

/-- With equally long sequences, counting on the first component of the zip
is counting on the gold sequence. -/
theorem countP_zip_fst (y_true : List String) :
    ∀ y_pred : List String, y_true.length = y_pred.length → ∀ a : String,
    ((y_true.zip y_pred).countP fun p => p.1 == a) =
      y_true.countP fun x => x == a := by
  induction y_true with
  | nil => intro yp _ a; simp
  | cons x t ih =>
    intro yp hlen a
    cases yp with
    | nil => simp at hlen
    | cons y ys =>
      simp only [List.zip_cons_cons, List.countP_cons]
      rw [ih ys (by simpa using hlen) a]

/-- Sums of mapped divisions merge into a division of the sum. -/
theorem sum_map_div (row : List Nat) (s : ℚ) :
    (row.map fun c : Nat => (c : ℚ) / s).sum = (row.sum : ℚ) / s := by
  induction row with
  | nil => simp
  | cons c t ih =>
    rw [List.map_cons, List.sum_cons, ih, List.sum_cons]
    push_cast
    rw [add_div]

/-- Counterexample for C5: with gold `[NOUN, NOUN]` and predictions
`[VERB, VERB]`, the gold label VERB has zero support, and numpy's division
turns its row into NaN entries (embedded `none`), not an all-zero row. -/
theorem confusion_zero_row_nan :
    Tagger.confusion_matrix ["NOUN", "NOUN"] ["VERB", "VERB"] true 2 =
      [[some 0, some 1], [none, none]] ∧
    ((Tagger.confusion_matrix ["NOUN", "NOUN"] ["VERB", "VERB"] true 2).getD
      1 [] ≠ [some (0 : ℚ), some 0]) := by
  have hlab : Tagger.cmLabels ["NOUN", "NOUN"] ["VERB", "VERB"] =
      ["NOUN", "VERB"] := by decide
  have hcnt : Tagger.cmCounts ["NOUN", "VERB"] ["NOUN", "NOUN"]
      ["VERB", "VERB"] = [[0, 2], [0, 0]] := by decide
  have hrow1 : Tagger.normRow [0, 2] 2 = [some 0, some 1] := by
    unfold Tagger.normRow
    norm_num
    constructor
    · exact roundDec_two_eq_self (k := 0) (by norm_num)
    · exact roundDec_two_eq_self (k := 100) (by norm_num)
  have hrow2 : Tagger.normRow [0, 0] 2 = [none, none] := by
    unfold Tagger.normRow
    norm_num
  have hmain : Tagger.confusion_matrix ["NOUN", "NOUN"] ["VERB", "VERB"]
      true 2 = [[some 0, some 1], [none, none]] := by
    unfold Tagger.confusion_matrix
    rw [if_pos rfl, hlab, hcnt]
    simp [hrow1, hrow2]
  refine ⟨hmain, ?_⟩
  rw [hmain]
  simp

/-- C5 (amended): in the row-normalized confusion matrix, the row of a gold
label with nonzero support is divided by its row sum (the gold occurrence
count), so the unrounded quotients sum to 1; the row of a gold label with
zero support is divided by its zero sum, producing all-NaN (`none`)
entries rather than an all-zero row. -/
theorem confusion_row_normalization (y_true y_pred labels : List String)
    (a : String) (decimals : Nat) (hnd : labels.Nodup)
    (hsub : ∀ x ∈ y_pred, x ∈ labels)
    (hlen : y_true.length = y_pred.length) :
    ((Tagger.cmRow labels y_true y_pred a).sum =
      y_true.countP fun x => x == a) ∧
    (a ∈ y_true →
      ((Tagger.cmRow labels y_true y_pred a).map fun c : Nat =>
        (c : ℚ) / ((Tagger.cmRow labels y_true y_pred a).sum : ℚ)).sum = 1) ∧
    (a ∉ y_true →
      Tagger.normRow (Tagger.cmRow labels y_true y_pred a) decimals =
        (Tagger.cmRow labels y_true y_pred a).map
          fun _ : Nat => (none : Option ℚ)) := by
  have hzip : ∀ p ∈ y_true.zip y_pred, p.2 ∈ labels := by
    intro p hp
    exact hsub p.2 (List.of_mem_zip hp).2
  have hsum : (Tagger.cmRow labels y_true y_pred a).sum =
      y_true.countP fun x => x == a := by
    unfold Tagger.cmRow
    rw [countP_split (y_true.zip y_pred) a labels hnd hzip]
    exact countP_zip_fst y_true y_pred hlen a
  refine ⟨hsum, fun ha => ?_, fun ha => ?_⟩
  · have hpos : 0 < (Tagger.cmRow labels y_true y_pred a).sum := by
      rw [hsum]
      exact List.countP_pos_iff.2 ⟨a, ha, by simp⟩
    rw [sum_map_div]
    have hne : (((Tagger.cmRow labels y_true y_pred a).sum : Nat) : ℚ) ≠ 0 := by
      exact_mod_cast hpos.ne'
    exact div_self hne
  · have hz : (Tagger.cmRow labels y_true y_pred a).sum = 0 := by
      rw [hsum, List.countP_eq_zero]
      intro x hx
      simp only [beq_iff_eq]
      intro he
      exact ha (he ▸ hx)
    unfold Tagger.normRow
    rw [hz]
    exact List.map_congr_left fun c _ => by simp

/-- Witness for C5 (amended) on a concrete two-token evaluation, with labels
as inferred by the source call. -/
theorem confusion_row_normalization_witness :
    (Tagger.cmLabels ["NOUN", "VERB"] ["NOUN", "NOUN"]).Nodup ∧
    (∀ x ∈ (["NOUN", "NOUN"] : List String),
      x ∈ Tagger.cmLabels ["NOUN", "VERB"] ["NOUN", "NOUN"]) ∧
    (["NOUN", "VERB"] : List String).length =
      (["NOUN", "NOUN"] : List String).length ∧
    (((Tagger.cmRow (Tagger.cmLabels ["NOUN", "VERB"] ["NOUN", "NOUN"])
        ["NOUN", "VERB"] ["NOUN", "NOUN"] "NOUN").sum =
      (["NOUN", "VERB"] : List String).countP fun x => x == "NOUN") ∧
    ("NOUN" ∈ (["NOUN", "VERB"] : List String) →
      ((Tagger.cmRow (Tagger.cmLabels ["NOUN", "VERB"] ["NOUN", "NOUN"])
          ["NOUN", "VERB"] ["NOUN", "NOUN"] "NOUN").map fun c : Nat =>
        (c : ℚ) / ((Tagger.cmRow (Tagger.cmLabels ["NOUN", "VERB"]
          ["NOUN", "NOUN"]) ["NOUN", "VERB"] ["NOUN", "NOUN"] "NOUN").sum
            : ℚ)).sum = 1) ∧
    ("NOUN" ∉ (["NOUN", "VERB"] : List String) →
      Tagger.normRow (Tagger.cmRow (Tagger.cmLabels ["NOUN", "VERB"]
        ["NOUN", "NOUN"]) ["NOUN", "VERB"] ["NOUN", "NOUN"] "NOUN") 2 =
        (Tagger.cmRow (Tagger.cmLabels ["NOUN", "VERB"] ["NOUN", "NOUN"])
          ["NOUN", "VERB"] ["NOUN", "NOUN"] "NOUN").map
            fun _ : Nat => (none : Option ℚ))) := by
  refine ⟨by decide, by decide, by decide, ?_⟩
  exact confusion_row_normalization ["NOUN", "VERB"] ["NOUN", "NOUN"]
    (Tagger.cmLabels ["NOUN", "VERB"] ["NOUN", "NOUN"]) "NOUN" 2
    (by decide) (by decide) (by decide)

/-- Context key of an NLTK n-gram tagger: the tuple of up to n-1 preceding
tags from the running history (entries may be `None` when no tagger in the
chain answered at that position) together with the current word. -/
abbrev NContext := List (Option String) × String

/-- Python slice `history[max(0, index - n + 1):index]` for a history of
length `index`: the last `n - 1` elements. -/
def lastN {α : Type} (n : Nat) (l : List α) : List α := l.drop (l.length - n)

namespace NLTK

/-- Modelled from the spec: training events of an NLTK n-gram tagger (NLTK
is an external dependency; its classes are named but not defined in this
repository's sources).  Per the spec, an n-gram tagger "assigns a tag based
on the preceding n−1 tags/words observed during training": walking one
sentence records, at each position, the context (preceding n−1 gold tags,
current word) with the gold tag at that position. -/
def ngramEventsSent (n : Nat) : List String → TSent → List (NContext × String)
  | _, [] => []
  | hist, (w, t) :: rest =>
    (((lastN (n - 1) hist).map some, w), t) ::
      ngramEventsSent n (hist ++ [t]) rest

/-- All n-gram training events of a corpus (histories reset per sentence). -/
def ngramEvents (n : Nat) (corpus : List TSent) : List (NContext × String) :=
  corpus.flatMap (ngramEventsSent n [])

/-- Most frequent element of a tag list (first maximum in fold order),
modelling `FreqDist.max()`; no claim observes the Python tie-break. -/
def freqMax (tags : List String) : String :=
  tags.foldl (fun best x => if tags.count best < tags.count x then x else best)
    (tags.headD "")

/-- Modelled from the spec: the trained `_context_to_tag` table maps every
context observed in training to the most frequent tag seen with it.  (NLTK
additionally prunes contexts on which the backoff already agrees; pruning
only removes keys, and the claims rely only on the keys' word components
being training words.) -/
def contextToTag (n : Nat) (corpus : List TSent) : List (NContext × String) :=
  ((ngramEvents n corpus).map Prod.fst).dedup.map fun c =>
    (c, freqMax ((ngramEvents n corpus).filterMap
      fun e => if e.1 = c then some e.2 else none))

/-- Modelled from the spec: NLTK `AffixTagger` context — a fixed-length
word prefix (positive length) or suffix (negative), and no context when the
word is shorter than the minimum word length (stem plus affix). -/
def affixContext (affix_length : Int) (min_word_length : Nat)
    (w : String) : Option String :=
  if w.length < min_word_length then none
  else if 0 < affix_length then some ⟨w.data.take affix_length.toNat⟩
  else if affix_length = 0 then some w
  else some ⟨w.data.drop (w.length - affix_length.natAbs)⟩

/-- Affix training events: positions with a defined context. -/
def affixEvents (affix_length : Int) (min_word_length : Nat)
    (corpus : List TSent) : List (String × String) :=
  corpus.flatMap fun sent => sent.filterMap fun wt =>
    match affixContext affix_length min_word_length wt.1 with
    | some c => some (c, wt.2)
    | none => none

/-- Trained affix table, analogous to `contextToTag`. -/
def affixContextToTag (affix_length : Int) (min_word_length : Nat)
    (corpus : List TSent) : List (String × String) :=
  ((affixEvents affix_length min_word_length corpus).map Prod.fst).dedup.map
    fun c => (c, freqMax ((affixEvents affix_length min_word_length
      corpus).filterMap fun e => if e.1 = c then some e.2 else none))

end NLTK

/-- A built NLTK tagger chain, as instantiated by
`SequenceBackoffTagger._create_tagger_sequence`: default, n-gram, affix or
regexp taggers, each with an optional backoff link. -/
inductive BTagger : Type where
  | defaultT (tag : String)
  | ngram (n : Nat) (table : List (NContext × String))
      (backoff : Option BTagger)
  | affix (affix_length : Int) (min_stem_length : Nat)
      (table : List (String × String)) (backoff : Option BTagger)
  | regex (patterns : List (String × String)) (backoff : Option BTagger)

/-- One tagging step (`SequentialBackoffTagger.tag_one` with each class's
`choose_tag`): consult the tagger's own table, else delegate to the backoff;
`DefaultTagger` always answers its fixed tag.  Regular-expression matching
is beyond the string model: no claim depends on the tag a `RegexpTagger`
chooses, and the model lets it defer to its backoff. -/
def tagOne : BTagger → String → List (Option String) → Option String
  | .defaultT t, _, _ => some t
  | .ngram n table bk, w, hist =>
    match table.lookup (lastN (n - 1) hist, w) with
    | some t => some t
    | none =>
      match bk with
      | some b => tagOne b w hist
      | none => none
  | .affix alen mstem table bk, w, hist =>
    match (NLTK.affixContext alen (mstem + alen.natAbs) w).bind
        table.lookup with
    | some t => some t
    | none =>
      match bk with
      | some b => tagOne b w hist
      | none => none
  | .regex _ bk, w, hist =>
    match bk with
    | some b => tagOne b w hist
    | none => none

/-- Embedding of `SequentialBackoffTagger.tag`: tag each token in order,
feeding previously produced tags forward as history. -/
def tagTokens (t : BTagger) (tokens : List String) : List (Option String) :=
  tokens.foldl (fun tags w => tags ++ [tagOne t w tags]) []

/-- Embedding of `Tagger.tag_tokenized` (`src/postagging/tagger.py`, lines
259-267) over a built chain: `self.tagger.tag(sentence)`, which returns
`list(zip(tokens, tags))`. -/
def tag_tokenized (t : BTagger) (tokens : List String) :
    List (String × Option String) :=
  tokens.zip (tagTokens t tokens)

/-- Error taxonomy raised by `SequenceBackoffTagger` construction. -/
inductive NLError : Type where
  | missingData
  | invalidTaggerName
  | emptySequence
  deriving DecidableEq

/-- Hyperparameters after the `SequenceBackoffTagger` setters resolved
Python-falsy inputs to the documented defaults. -/
structure SBDefaults : Type where
  tag : String
  n : Nat
  affix_length : Int
  min_stem_length : Nat
  regexps : List (String × String)
  deriving DecidableEq

/-- `default_tag` setter (`src/postagging/tagger.py`, lines 455-463):
`value if value else 'NOUN'` (Python falsy: `None` or empty string). -/
def resolve_default_tag (value : Option String) : String :=
  match value with
  | some s => if s = "" then "NOUN" else s
  | none => "NOUN"

/-- `ngram_size` setter: `value if value else 4`. -/
def resolve_ngram_size (value : Option Nat) : Nat :=
  match value with
  | some k => if k = 0 then 4 else k
  | none => 4

/-- `affix_length` setter: `value if value else 3`. -/
def resolve_affix_length (value : Option Int) : Int :=
  match value with
  | some k => if k = 0 then 3 else k
  | none => 3

/-- `min_stem_length` setter: `value if value else 2`. -/
def resolve_min_stem_length (value : Option Nat) : Nat :=
  match value with
  | some k => if k = 0 then 2 else k
  | none => 2

/-- Default regex rule list of the `regexps` setter: one numeric-token rule
mapping to NUM. -/
def default_patterns : List (String × String) :=
  [("^-?\\d+(.\\d+)?$", "NUM")]

/-- `regexps` setter: `value if value else patterns`. -/
def resolve_regexps (value : Option (List (String × String))) :
    List (String × String) :=
  match value with
  | some l => if l = [] then default_patterns else l
  | none => default_patterns

/-- The `defaults` bundle assembled by the constructor from its keyword
arguments through the setters. -/
def resolveDefaults (default_tag : Option String) (ngram_size : Option Nat)
    (regexps : Option (List (String × String))) (affix_length : Option Int)
    (min_stem_length : Option Nat) : SBDefaults :=
  ⟨resolve_default_tag default_tag, resolve_ngram_size ngram_size,
   resolve_affix_length affix_length,
   resolve_min_stem_length min_stem_length, resolve_regexps regexps⟩

/-- Tagger variant classes known to `_tagger_names`. -/
inductive TCls : Type where
  | DEFAULT
  | UNIGRAM
  | BIGRAM
  | TRIGRAM
  | NGRAM
  | AFFIX
  | REGEX
  deriving DecidableEq

/-- ASCII uppercasing, `name.upper()` on the names the mapping accepts. -/
def upperChars (s : String) : String := ⟨s.data.map Char.toUpper⟩

/-- Left-to-right removal of every `TAGGER` occurrence, as
`str.replace('TAGGER', '')`. -/
def stripTagger : List Char → List Char
  | 'T' :: 'A' :: 'G' :: 'G' :: 'E' :: 'R' :: rest => stripTagger rest
  | c :: rest => c :: stripTagger rest
  | [] => []

/-- Removal of every space, as `str.replace(' ', '')`. -/
def stripSpaces (l : List Char) : List Char := l.filter fun c => c ≠ ' '

/-- Embedding of `_clean` inside `_tagger_names`:
`name.upper().replace('TAGGER', '').replace(' ', '')`. -/
def cleanName (s : String) : String :=
  ⟨stripSpaces (stripTagger (upperChars s).data)⟩

/-- The name table of `_tagger_names` (`src/postagging/tagger.py`, lines
371-392); `REGEX` and `REGEXP` both denote `nltk.RegexpTagger`. -/
def taggerMapping : List (String × TCls) :=
  [("DEFAULT", .DEFAULT), ("UNIGRAM", .UNIGRAM), ("BIGRAM", .BIGRAM),
   ("TRIGRAM", .TRIGRAM), ("NGRAM", .NGRAM), ("AFFIX", .AFFIX),
   ("REGEX", .REGEX), ("REGEXP", .REGEX)]

/-- The resolution loop of `_tagger_names`: map every name through the
table, failing (`KeyError`) as soon as one is unknown. -/
def resolveNames : List String → Option (List TCls)
  | [] => some []
  | s :: rest =>
    match taggerMapping.lookup (cleanName s), resolveNames rest with
    | some c, some cs => some (c :: cs)
    | _, _ => none

/-- Embedding of `_tagger_names`: the resolved class list, reversed when
`reverse` is set (the constructor default). -/
def taggerNames (sequence : List String) (reverse : Bool) :
    Except NLError (List TCls) :=
  match resolveNames sequence with
  | some l => .ok (if reverse then l.reverse else l)
  | none => .error .invalidTaggerName

/-- Whether a variant trains on the corpus (the n-gram family and the affix
tagger do; the default and regexp taggers do not). -/
def TCls.trainable : TCls → Bool
  | .DEFAULT => false
  | .REGEX => false
  | _ => true

/-- Modelled from the spec for the external NLTK constructors whose
signatures `_inspect_tagger_constructor_args` reads (§4.3 lists the
hyperparameters each variant needs): DEFAULT takes only the default tag
(NLTK `DefaultTagger` accepts no backoff), the n-gram variants take the
training corpus and the backoff, AFFIX takes affix length, minimum stem
length, training corpus and backoff, REGEX takes the pattern list and the
backoff.  A trainable variant built without a non-empty training corpus
fails with the missing-data error (§4.3; NLTK `TaggerI._check_params`
raises `ValueError` when the training data is falsy and no trained model is
given — the builder never passes a model). -/
def instantiate (cls : TCls) (d : SBDefaults) (train : List TSent)
    (backoff : Option BTagger) : Except NLError BTagger :=
  match cls with
  | .DEFAULT => .ok (.defaultT d.tag)
  | .UNIGRAM =>
    if train = [] then .error .missingData
    else .ok (.ngram 1 (NLTK.contextToTag 1 train) backoff)
  | .BIGRAM =>
    if train = [] then .error .missingData
    else .ok (.ngram 2 (NLTK.contextToTag 2 train) backoff)
  | .TRIGRAM =>
    if train = [] then .error .missingData
    else .ok (.ngram 3 (NLTK.contextToTag 3 train) backoff)
  | .NGRAM =>
    if train = [] then .error .missingData
    else .ok (.ngram d.n (NLTK.contextToTag d.n train) backoff)
  | .AFFIX =>
    if train = [] then .error .missingData
    else .ok (.affix d.affix_length d.min_stem_length
      (NLTK.affixContextToTag d.affix_length
        (d.min_stem_length + d.affix_length.natAbs) train) backoff)
  | .REGEX => .ok (.regex d.regexps backoff)

/-- The loop body of `_create_tagger_sequence`: instantiate each class in
processing order, handing it the previously appended tagger
(`defaults['backoff'] = taggers[-1]`); an exception raised by a constructor
aborts the loop. -/
def createTaggerSequenceAux (d : SBDefaults) (train : List TSent) :
    List BTagger → List TCls → Except NLError (List BTagger)
  | taggers, [] => .ok taggers
  | taggers, cls :: rest =>
    match instantiate cls d train taggers.getLast? with
    | .ok t => createTaggerSequenceAux d train (taggers ++ [t]) rest
    | .error e => .error e

/-- Embedding of `_create_tagger_sequence` (`src/postagging/tagger.py`,
lines 394-405): run the instantiation loop over the processing-order class
list, starting from an empty tagger list. -/
def createTaggerSequence (clss : List TCls) (d : SBDefaults)
    (train : List TSent) : Except NLError (List BTagger) :=
  createTaggerSequenceAux d train [] clss

/-- `sequence` setter default (`src/postagging/tagger.py`, lines 335-358). -/
def resolveSequence (value : Option (List String)) : List String :=
  match value with
  | some l => l
  | none => ["trigram", "bigram", "unigram", "regex", "affix", "default"]

/-- Embedding of the `SequenceBackoffTagger` constructor
(`src/postagging/tagger.py`, lines 318-446): the `train` setter rejects a
missing (`None`) corpus before anything else runs; name resolution fails on
an unknown name before any tagger is instantiated or trained; the
instantiation loop propagates any constructor failure (a trainable variant
over an empty corpus); otherwise `taggers[-1]` — the tagger of the
first-declared, most-specific spec — is returned as the head.
(`taggers[-1]` on an empty sequence would raise an IndexError, embedded as
`emptySequence`.) -/
def sequenceBackoffTagger (sequence : Option (List String)) (reverse : Bool)
    (train : Option (List TSent)) (default_tag : Option String)
    (ngram_size : Option Nat) (regexps : Option (List (String × String)))
    (affix_length : Option Int) (min_stem_length : Option Nat) :
    Except NLError BTagger :=
  match train with
  | none => .error .missingData
  | some tr =>
    match taggerNames (resolveSequence sequence) reverse with
    | .error e => .error e
    | .ok clss =>
      match createTaggerSequence clss
          (resolveDefaults default_tag ngram_size regexps affix_length
            min_stem_length) tr with
      | .error e => .error e
      | .ok taggers =>
        match taggers.getLast? with
        | some t => .ok t
        | none => .error .emptySequence

/-- All words occurring in a training corpus. -/
def trainWords (corpus : List TSent) : List String :=
  corpus.flatMap (List.map Prod.fst)

/-- The word component of every n-gram training event of a sentence is a
word of that sentence. -/
theorem ngramEventsSent_word_mem (n : Nat) (sent : TSent) :
    ∀ hist ctx w t, ((ctx, w), t) ∈ NLTK.ngramEventsSent n hist sent →
      w ∈ sent.map Prod.fst := by
  induction sent with
  | nil =>
    intro hist ctx w t h
    simp [NLTK.ngramEventsSent] at h
  | cons wt rest ih =>
    intro hist ctx w t h
    obtain ⟨w0, t0⟩ := wt
    rw [NLTK.ngramEventsSent, List.mem_cons] at h
    rcases h with h | h
    · have hw : w = w0 := by
        have := congrArg (fun p => p.1.2) h
        simpa using this
      simp [hw]
    · exact List.mem_cons_of_mem _ (ih (hist ++ [t0]) ctx w t h)

/-- The word component of every key of a trained n-gram table is a training
word. -/
theorem contextToTag_key_word (n : Nat) (tr : List TSent)
    (ctx : List (Option String)) (w : String) (v : String)
    (h : ((ctx, w), v) ∈ NLTK.contextToTag n tr) : w ∈ trainWords tr := by
  unfold NLTK.contextToTag at h
  rcases List.mem_map.1 h with ⟨c, hc, hcv⟩
  have hc' : c = (ctx, w) := congrArg Prod.fst hcv
  rw [hc'] at hc
  have hkey : (ctx, w) ∈ (NLTK.ngramEvents n tr).map Prod.fst :=
    List.mem_dedup.1 hc
  rcases List.mem_map.1 hkey with ⟨e, he, hek⟩
  obtain ⟨⟨ectx, ew⟩, et⟩ := e
  have hew : ew = w := by
    have := congrArg Prod.snd hek
    simpa using this
  rcases List.mem_flatMap.1 he with ⟨sent, hsent, hesent⟩
  subst hew
  have := ngramEventsSent_word_mem n sent [] ectx ew et (by
    have hk : ectx = ctx := by
      have := congrArg Prod.fst hek
      simpa using this
    exact hesent)
  exact List.mem_flatMap.2 ⟨sent, hsent, this⟩

/-- Looking up any context whose word was never seen in training misses the
trained table. -/
theorem contextToTag_lookup_unseen (n : Nat) (tr : List TSent) (w : String)
    (hw : w ∉ trainWords tr) (ctx : List (Option String)) :
    (NLTK.contextToTag n tr).lookup (ctx, w) = none := by
  cases hl : (NLTK.contextToTag n tr).lookup (ctx, w) with
  | none => rfl
  | some v => exact absurd (contextToTag_key_word n tr ctx w v
      (lookup_mem hl)) hw

/-- A chain whose head answers a constant on the given words tags the whole
list with that constant. -/
theorem tagTokens_const (chain : BTagger) (dtag : String)
    (words : List String)
    (h : ∀ w ∈ words, ∀ hist, tagOne chain w hist = some dtag) :
    ∀ acc, words.foldl (fun tags w => tags ++ [tagOne chain w tags]) acc =
      acc ++ words.map fun _ => some dtag := by
  induction words with
  | nil =>
    intro acc
    simp
  | cons w rest ih =>
    intro acc
    rw [List.foldl_cons, h w (List.mem_cons_self w rest) acc,
      ih (fun x hx hist => h x (List.mem_cons_of_mem w hx) hist)
        (acc ++ [some dtag])]
    simp

/-- Zipping a list with a mapped copy of itself pairs elements pointwise. -/
theorem zip_self_map {α β : Type} (l : List α) (f : α → β) :
    l.zip (l.map f) = l.map fun a => (a, f a) := by
  induction l with
  | nil => rfl
  | cons x t ih => simp [ih]

/-- C2: the chain built from `["Trigram", "Bigram", "Unigram", "Default"]`
and a non-empty training corpus, on a sentence of words all unseen in
training, returns exactly one tag per token, each equal to the configured
default tag, which resolves to `NOUN` when not supplied. -/
theorem chain_unseen_words_default (tr : List TSent) (htr : tr ≠ [])
    (words : List String) (hunseen : ∀ w ∈ words, w ∉ trainWords tr)
    (dt : Option String) :
    ∃ chain,
      sequenceBackoffTagger
        (some ["Trigram", "Bigram", "Unigram", "Default"]) true (some tr)
        dt none none none none = .ok chain ∧
      tag_tokenized chain words =
        words.map (fun w => (w, some (resolve_default_tag dt))) ∧
      (tag_tokenized chain words).length = words.length ∧
      resolve_default_tag none = "NOUN" := by
  obtain ⟨s0, tr0, rfl⟩ := List.exists_cons_of_ne_nil htr
  have htag : ∀ w ∈ words, ∀ hist : List (Option String),
      tagOne (.ngram 3 (NLTK.contextToTag 3 (s0 :: tr0)) (some (.ngram 2
        (NLTK.contextToTag 2 (s0 :: tr0)) (some (.ngram 1
          (NLTK.contextToTag 1 (s0 :: tr0))
          (some (.defaultT (resolve_default_tag dt)))))))) w hist =
        some (resolve_default_tag dt) := by
    intro w hw hist
    have h3 := contextToTag_lookup_unseen 3 (s0 :: tr0) w (hunseen w hw)
      (lastN 2 hist)
    have h2 := contextToTag_lookup_unseen 2 (s0 :: tr0) w (hunseen w hw)
      (lastN 1 hist)
    have h1 := contextToTag_lookup_unseen 1 (s0 :: tr0) w (hunseen w hw)
      (lastN 0 hist)
    simp [tagOne, h3, h2, h1]
  have hmain : tag_tokenized (.ngram 3 (NLTK.contextToTag 3 (s0 :: tr0))
      (some (.ngram 2 (NLTK.contextToTag 2 (s0 :: tr0)) (some (.ngram 1
        (NLTK.contextToTag 1 (s0 :: tr0))
          (some (.defaultT (resolve_default_tag dt)))))))) words =
      words.map (fun w => (w, some (resolve_default_tag dt))) := by
    unfold tag_tokenized tagTokens
    rw [tagTokens_const _ _ words htag [], List.nil_append, zip_self_map]
  exact ⟨.ngram 3 (NLTK.contextToTag 3 (s0 :: tr0)) (some (.ngram 2
    (NLTK.contextToTag 2 (s0 :: tr0)) (some (.ngram 1
      (NLTK.contextToTag 1 (s0 :: tr0))
      (some (.defaultT (resolve_default_tag dt))))))), rfl, hmain,
    by rw [hmain, List.length_map], rfl⟩

/-- Witness for C2: a one-sentence training corpus and a two-token sentence
of unseen words, tagged NOUN twice. -/
theorem chain_unseen_words_default_witness :
    ([[("a", "X")]] : List TSent) ≠ [] ∧
    (∀ w ∈ (["b", "c"] : List String), w ∉ trainWords [[("a", "X")]]) ∧
    ∃ chain,
      sequenceBackoffTagger
        (some ["Trigram", "Bigram", "Unigram", "Default"]) true
        (some [[("a", "X")]]) none none none none none = .ok chain ∧
      tag_tokenized chain ["b", "c"] =
        (["b", "c"] : List String).map
          (fun w => (w, some (resolve_default_tag none))) ∧
      (tag_tokenized chain ["b", "c"]).length =
        (["b", "c"] : List String).length ∧
      resolve_default_tag none = "NOUN" :=
  ⟨by decide, by decide, chain_unseen_words_default [[("a", "X")]]
    (by decide) ["b", "c"] (by decide) none⟩

/-- The `_tagger_names` loop fails as soon as any specification entry is
unknown to the name table. -/
theorem resolveNames_none (spec : List String)
    (h : ∃ s ∈ spec, taggerMapping.lookup (cleanName s) = none) :
    resolveNames spec = none := by
  induction spec with
  | nil =>
    rcases h with ⟨s, hs, _⟩
    simp at hs
  | cons s rest ih =>
    rcases h with ⟨x, hx, hxn⟩
    rcases List.mem_cons.1 hx with h1 | h1
    · subst h1
      unfold resolveNames
      rw [hxn]
    · unfold resolveNames
      rw [ih ⟨x, h1, hxn⟩]
      cases taggerMapping.lookup (cleanName s) <;> rfl

/-- C6: a specification containing a name that does not resolve to a known
tagger variant makes construction fail with the configuration error
(`invalid tagger name`); the failure arises inside `_tagger_names`, whose
resolution loop completes before `_create_tagger_sequence` instantiates or
trains any tagger variant — on the error branch the instantiation fold is
never entered. -/
theorem unknown_variant_config_error (spec : List String) (tr : List TSent)
    (reverse : Bool) (default_tag : Option String) (ngram_size : Option Nat)
    (regexps : Option (List (String × String))) (affix_length : Option Int)
    (min_stem_length : Option Nat)
    (h : ∃ s ∈ spec, taggerMapping.lookup (cleanName s) = none) :
    sequenceBackoffTagger (some spec) reverse (some tr) default_tag
      ngram_size regexps affix_length min_stem_length =
        .error .invalidTaggerName ∧
    taggerNames spec reverse = .error .invalidTaggerName := by
  have h2 : taggerNames spec reverse = .error .invalidTaggerName := by
    unfold taggerNames
    rw [resolveNames_none spec h]
  refine ⟨?_, h2⟩
  simp only [sequenceBackoffTagger, resolveSequence, h2]

/-- Witness for C6: the unknown name `Foo` aborts construction. -/
theorem unknown_variant_config_error_witness :
    (∃ s ∈ (["Foo", "Default"] : List String),
      taggerMapping.lookup (cleanName s) = none) ∧
    (sequenceBackoffTagger (some ["Foo", "Default"]) true
      (some [[("a", "X")]]) none none none none none =
        .error .invalidTaggerName ∧
    taggerNames ["Foo", "Default"] true = .error .invalidTaggerName) :=
  ⟨⟨"Foo", by decide, rfl⟩,
    unknown_variant_config_error ["Foo", "Default"] [[("a", "X")]] true
      none none none none none ⟨"Foo", by decide, rfl⟩⟩

/-- A trainable variant's constructor on an empty corpus raises the
missing-data failure (`_check_params` on falsy training data). -/
theorem instantiate_empty_trainable (cls : TCls) (d : SBDefaults)
    (bk : Option BTagger) (h : cls.trainable = true) :
    instantiate cls d [] bk = .error .missingData := by
  cases cls
  case DEFAULT => simp [TCls.trainable] at h
  case REGEX => simp [TCls.trainable] at h
  all_goals rfl

/-- Non-trainable variants (DEFAULT, REGEX) always construct. -/
theorem instantiate_not_trainable_ok (cls : TCls) (d : SBDefaults)
    (tr : List TSent) (bk : Option BTagger) (h : cls.trainable = false) :
    ∃ t, instantiate cls d tr bk = .ok t := by
  cases cls
  case DEFAULT => exact ⟨.defaultT d.tag, rfl⟩
  case REGEX => exact ⟨.regex d.regexps bk, rfl⟩
  all_goals simp [TCls.trainable] at h

/-- The instantiation loop over an empty training corpus fails with the
missing-data error as soon as it reaches a trainable class. -/
theorem createTaggerSequenceAux_empty_corpus (d : SBDefaults) :
    ∀ (clss : List TCls) (acc : List BTagger),
      (∃ c ∈ clss, c.trainable = true) →
      createTaggerSequenceAux d [] acc clss = .error .missingData := by
  intro clss
  induction clss with
  | nil =>
    intro acc h
    rcases h with ⟨c, hc, _⟩
    simp at hc
  | cons cls rest ih =>
    intro acc h
    unfold createTaggerSequenceAux
    by_cases htr : cls.trainable = true
    · rw [instantiate_empty_trainable cls d acc.getLast? htr]
    · have hfalse : cls.trainable = false := by
        revert htr
        cases cls.trainable <;> simp
      rcases instantiate_not_trainable_ok cls d [] acc.getLast? hfalse
        with ⟨t, ht⟩
      rw [ht]
      rcases h with ⟨c, hc, hct⟩
      rcases List.mem_cons.1 hc with h1 | h1
      · subst h1
        exact absurd hct htr
      · exact ih (acc ++ [t]) ⟨c, h1, hct⟩

/-- C7: construction of a chain containing a trainable variant fails with
the missing-data error whenever the supplied training corpus is not a
non-empty corpus: an absent (`None`) corpus is rejected by the `train`
setter before anything else runs, and an explicitly empty corpus makes the
trainable variant's constructor raise during chain building, so no chain is
returned in either case. -/
theorem trainable_missing_data (sequence : Option (List String))
    (reverse : Bool) (default_tag : Option String) (ngram_size : Option Nat)
    (regexps : Option (List (String × String))) (affix_length : Option Int)
    (min_stem_length : Option Nat) (decl : List TCls)
    (hres : resolveNames (resolveSequence sequence) = some decl)
    (htrain : ∃ c ∈ decl, c.trainable = true) :
    sequenceBackoffTagger sequence reverse none default_tag ngram_size
      regexps affix_length min_stem_length = .error .missingData ∧
    sequenceBackoffTagger sequence reverse (some []) default_tag ngram_size
      regexps affix_length min_stem_length = .error .missingData := by
  constructor
  · rfl
  · have h1 : taggerNames (resolveSequence sequence) reverse =
        .ok (if reverse then decl.reverse else decl) := by
      unfold taggerNames
      rw [hres]
    have h2 : createTaggerSequence (if reverse then decl.reverse else decl)
        (resolveDefaults default_tag ngram_size regexps affix_length
          min_stem_length) [] = .error .missingData := by
      apply createTaggerSequenceAux_empty_corpus
      rcases htrain with ⟨c, hc, hct⟩
      refine ⟨c, ?_, hct⟩
      cases reverse
      · simpa using hc
      · simp [List.mem_reverse, hc]
    simp only [sequenceBackoffTagger, h1, h2]

/-- Witness for C7: the `[Unigram, Default]` chain rejected both with an
absent and with an empty training corpus. -/
theorem trainable_missing_data_witness :
    resolveNames (resolveSequence (some ["Unigram", "Default"])) =
      some [TCls.UNIGRAM, TCls.DEFAULT] ∧
    (∃ c ∈ ([TCls.UNIGRAM, TCls.DEFAULT] : List TCls),
      c.trainable = true) ∧
    (sequenceBackoffTagger (some ["Unigram", "Default"]) true none
      none none none none none = .error .missingData ∧
    sequenceBackoffTagger (some ["Unigram", "Default"]) true (some [])
      none none none none none = .error .missingData) :=
  ⟨rfl, ⟨.UNIGRAM, by decide, rfl⟩,
    trainable_missing_data (some ["Unigram", "Default"]) true none none
      none none none [TCls.UNIGRAM, TCls.DEFAULT] rfl
      ⟨.UNIGRAM, by decide, rfl⟩⟩

/-- A Python value admissible as element of the list argument of
`Tagger.tag`: a string, or a list of strings (a tokenized sentence). -/
inductive PyItem : Type where
  | str (s : String)
  | lst (l : List String)

/-- Argument shapes of `Tagger.tag`: a text string or a list of items. -/
inductive TagArg : Type where
  | text (s : String)
  | listArg (items : List PyItem)

/-- Which entry point `Tagger.tag` forwards to, with its payload. -/
inductive TagDispatch : Type where
  | tokenized (sent : List String)
  | untokenizedSentences (sents : List String)
  | tokenizedSentences (sents : List (List String))
  | untokenizedText (t : String)
  | invalidArgument
  deriving DecidableEq

/-- `isinstance(item, str)` on an item. -/
def PyItem.isStr : PyItem → Bool
  | .str _ => true
  | .lst _ => false

/-- `isinstance(item, list)` on an item. -/
def PyItem.isLst : PyItem → Bool
  | .str _ => false
  | .lst _ => true

/-- The string payload of a string item. -/
def PyItem.strVal : PyItem → String
  | .str s => s
  | .lst _ => ""

/-- The list payload of a list item. -/
def PyItem.lstVal : PyItem → List String
  | .str _ => []
  | .lst l => l

/-- Embedding of the dispatcher `Tagger.tag` (`src/postagging/tagger.py`,
lines 238-257): a plain string is untokenized text; a list whose elements
are all strings is a single tokenized sentence when every element has
length exactly 1 and a batch of untokenized sentences otherwise; a list
whose elements are all lists is a batch of tokenized sentences; anything
else raises ValueError. -/
def tagDispatch : TagArg → TagDispatch
  | .text s => .untokenizedText s
  | .listArg items =>
    if items.all PyItem.isStr then
      if (items.map PyItem.strVal).all (fun s => s.length == 1) then
        .tokenized (items.map PyItem.strVal)
      else
        .untokenizedSentences (items.map PyItem.strVal)
    else if items.all PyItem.isLst then
      .tokenizedSentences (items.map PyItem.lstVal)
    else
      .invalidArgument

/-- The dispatcher on a flat list of strings reduces to the length test. -/
theorem tagDispatch_strList (l : List String) :
    tagDispatch (.listArg (l.map .str)) =
      if l.all (fun s => s.length == 1) then .tokenized l
      else .untokenizedSentences l := by
  have hstr : (l.map PyItem.str).all PyItem.isStr = true :=
    List.all_eq_true.2 fun x hx => by
      rcases List.mem_map.1 hx with ⟨s, _, hs⟩
      rw [← hs]
      rfl
  have hval : (l.map PyItem.str).map PyItem.strVal = l := by
    rw [List.map_map]
    exact List.map_id'' (fun _ => rfl) l
  simp only [tagDispatch]
  rw [hstr, if_pos rfl, hval]

/-- C10: the polymorphic `tag` entry point treats a flat list of strings as
a single tokenized sentence exactly when every element has length 1; as
soon as any element has two or more characters, each string is instead
dispatched as a separate untokenized sentence — in particular
`tag(["the", "cat"])` does not tag the two-token sentence
`["the", "cat"]`. -/
theorem tag_dispatch_flat_list (l : List String) :
    (tagDispatch (.listArg (l.map .str)) = .tokenized l ↔
      l.all (fun s => s.length == 1) = true) ∧
    ((∃ s ∈ l, 2 ≤ s.length) →
      tagDispatch (.listArg (l.map .str)) = .untokenizedSentences l) ∧
    tagDispatch (.listArg [.str "the", .str "cat"]) =
      .untokenizedSentences ["the", "cat"] ∧
    tagDispatch (.listArg [.str "the", .str "cat"]) ≠
      .tokenized ["the", "cat"] := by
  refine ⟨?_, ?_, by decide, by decide⟩
  · rw [tagDispatch_strList]
    by_cases hall : l.all (fun s => s.length == 1) = true
    · rw [if_pos hall]
      simp [hall]
    · rw [if_neg hall]
      simp [hall]
  · intro ⟨s, hs, hlen⟩
    have hnotall : ¬ l.all (fun s => s.length == 1) = true := by
      intro hall
      have := List.all_eq_true.1 hall s hs
      have h1 : s.length = 1 := by simpa using this
      omega
    rw [tagDispatch_strList, if_neg hnotall]

/-- Witness for C10 on `["the", "cat"]`. -/
theorem tag_dispatch_flat_list_witness :
    (∃ s ∈ (["the", "cat"] : List String), 2 ≤ s.length) ∧
    tagDispatch (.listArg ((["the", "cat"] : List String).map .str)) =
      .untokenizedSentences ["the", "cat"] :=
  ⟨⟨"the", by decide, by decide⟩,
    (tag_dispatch_flat_list ["the", "cat"]).2.1
      ⟨"the", by decide, by decide⟩⟩

end Natlang
